import Mathlib

/-!
Shallow embedding of the OpenHIM-to-FHIR event forwarder
(`src/index.js`, with the instrumented near-duplicate variant in
`src/unnamed/part_000`).

The embedded core is the `POST /event` handler: truthiness check on the
inbound `uuid`, duplicate suppression against the in-memory `seen` set,
fire-and-forget persistence (`saveSeen`), fetch of the root Encounter and
its optional Patient subject (both fatal on failure), and the loop over
eleven related FHIR resource types whose failures are caught per type.
Deliveries (`putToNode`) are wrapped in `retryRequest`, a bounded retry
loop with linear backoff.

External I/O (axios GET/PUT, the filesystem) is modelled by an `Env`
record of outcome oracles; every model function additionally produces a
trace of observable events (`Ev`) recording set mutation, persistence
initiation, upstream fetches, downstream delivery attempts and backoff
waits, in the order the source performs them.
-/

namespace OpenhimFhir

/-- Observable events emitted while processing one inbound event, in
source order: `markSeen`/`persist` from the admission step
(`seen.add(uuid); saveSeen()`), `fetchEncounter`/`fetchPatient`/`fetchQuery`
from `getFromProxy` calls, `putAttempt` from each axios PUT performed
inside `retryRequest`, and `wait` from each backoff sleep. -/
inductive Ev where
  | markSeen (uuid : String)
  | persist
  | fetchEncounter (uuid : String)
  | fetchPatient (pid : String)
  | fetchQuery (ty : String) (uuid : String)
  | putAttempt (rtype : String) (rid : String)
  | wait (ms : Nat)
deriving Repr, DecidableEq

/-- A FHIR resource as the handler reads it: `resourceType` and `id`
(used to build the PUT URL and gate delivery of bundle entries) and the
optional `subject.reference` string of an Encounter. -/
structure Resource where
  resourceType : String
  id : String
  subjectRef : Option String
deriving Repr, DecidableEq

/-- A search bundle: `bundle.entry` may be absent; each entry's
`resource` may be absent. -/
structure Bundle where
  entry : Option (List (Option Resource))
deriving Repr, DecidableEq

/-- Outcomes of the external calls the handler performs.  `putOutcome`
is indexed by the attempt number so retry behaviour is observable;
`persistOutcome` is the result the `fs.writeFile` callback would see. -/
structure Env where
  getEncounter : String → Except String Resource
  getPatient : String → Except String Resource
  getBundle : String → String → Except String Bundle
  putOutcome : String → String → Nat → Except String Nat
  persistOutcome : Except String Unit

/-- source constant `MAX_RETRIES = 3`. -/
def MAX_RETRIES : Nat := 3

/-- Result of one `retryRequest` run: the value returned or the thrown
`lastErr` (`none` models the initial JS `null`, thrown only when the
loop body never runs), the final value of the `attempt` counter (the
number of `fn()` invocations when started at 0) and the emitted trace. -/
structure RetryResult (α : Type) where
  result : Except (Option String) α
  calls : Nat
  trace : List Ev
deriving Repr

/-- Loop of `retryRequest` in `src/index.js` lines 56-71.  The source's
`while (attempt < maxRetries)` is rendered with fuel `maxRetries - attempt`;
`attempt` is threaded explicitly so the wait `500 * attempt` (computed
after `attempt++`) and the attempt count match the source variables.
This variant sleeps after every failed attempt, the final one included. -/
def retryGo (fn : Nat → Except String α × List Ev) :
    Nat → Nat → Option String → RetryResult α
  | 0, attempt, lastErr => ⟨.error lastErr, attempt, []⟩
  | fuel + 1, attempt, _lastErr =>
    match fn attempt with
    | (.ok v, tr) => ⟨.ok v, attempt + 1, tr⟩
    | (.error e, tr) =>
      let rest := retryGo fn fuel (attempt + 1) (some e)
      ⟨rest.result, rest.calls, tr ++ Ev.wait (500 * (attempt + 1)) :: rest.trace⟩

/-- `retryRequest(fn, maxRetries)` of `src/index.js`. -/
def retryRequest (fn : Nat → Except String α × List Ev) (maxRetries : Nat) :
    RetryResult α :=
  retryGo fn maxRetries 0 none

/-- Loop of `retryRequest` in `src/unnamed/part_000` lines 87-113: same
policy except the backoff sleep is guarded by `if (attempt < maxRetries)`
after the increment, so no wait follows the final failed attempt.
`maxRetries` is passed along unchanged for that comparison. -/
def retryGoDebug (fn : Nat → Except String α × List Ev) (maxRetries : Nat) :
    Nat → Nat → Option String → RetryResult α
  | 0, attempt, lastErr => ⟨.error lastErr, attempt, []⟩
  | fuel + 1, attempt, _lastErr =>
    match fn attempt with
    | (.ok v, tr) => ⟨.ok v, attempt + 1, tr⟩
    | (.error e, tr) =>
      let rest := retryGoDebug fn maxRetries fuel (attempt + 1) (some e)
      ⟨rest.result, rest.calls,
        tr ++ (if attempt + 1 < maxRetries then [Ev.wait (500 * (attempt + 1))] else [])
           ++ rest.trace⟩

/-- `retryRequest(fn, maxRetries)` of `src/unnamed/part_000`. -/
def retryRequestDebug (fn : Nat → Except String α × List Ev) (maxRetries : Nat) :
    RetryResult α :=
  retryGoDebug fn maxRetries maxRetries 0 none

/-- Lifts a trace-free operation (the claims quantify over plain
operations) into the shape `retryRequest` consumes. -/
def pureOp (fn : Nat → Except String α) : Nat → Except String α × List Ev :=
  fun a => (fn a, [])

/-- `putToNode(resource)`: one delivery, wrapped in `retryRequest` with
the default budget; each attempt performs one PUT addressed by the
record's `resourceType` and `id`. -/
def putToNode (env : Env) (r : Resource) : RetryResult Nat :=
  retryRequest
    (fun a => (env.putOutcome r.resourceType r.id a, [Ev.putAttempt r.resourceType r.id]))
    MAX_RETRIES

/-- JS `s.split('/')` over the character list: splitting always yields
at least one (possibly empty) segment. -/
def splitSlash : List Char → List (List Char)
  | [] => [[]]
  | c :: cs =>
    if c = '/' then [] :: splitSlash cs
    else
      match splitSlash cs with
      | [] => [[c]]
      | seg :: rest => (c :: seg) :: rest

/-- JS `s.split('/').pop()`: the last `/`-separated segment (`split`
never yields an empty array). -/
def lastSegment (s : String) : String :=
  String.mk ((splitSlash s.data).getLastD [])

/-- `encounter.subject?.reference?.split('/').pop()`: `none` when the
optional chain short-circuits. -/
def extractPatientId (subjectRef : Option String) : Option String :=
  subjectRef.map lastSegment

/-- Truthiness of the extracted patient id (`if (patientId)`): absent or
empty-string ids are falsy. -/
def truthyOptStr : Option String → Bool
  | none => false
  | some s => !s.isEmpty

/-- Guard `entry.resource?.resourceType && entry.resource?.id` on a
present entry resource. -/
def deliverable (r : Resource) : Bool :=
  !r.resourceType.isEmpty && !r.id.isEmpty

/-- Outcome of the inner `for (const entry of bundle.entry)` loop of one
resource type: number of `results.push` performed, the delivery error
that ended the loop early (if any, later absorbed by the per-type
`catch`), and the trace. -/
structure EntriesResult where
  delivered : Nat
  aborted : Option (Option String)
  trace : List Ev
deriving Repr

/-- Inner loop over a bundle's entries: entries without a resource or
failing the `resourceType && id` guard are skipped; a delivery failure
stops the loop, keeping the successes already pushed. -/
def processEntries (env : Env) : List (Option Resource) → EntriesResult
  | [] => ⟨0, none, []⟩
  | none :: rest => processEntries env rest
  | some r :: rest =>
    if deliverable r then
      match (putToNode env r).result with
      | .error e => ⟨0, some e, (putToNode env r).trace⟩
      | .ok _ =>
        ⟨(processEntries env rest).delivered + 1,
         (processEntries env rest).aborted,
         (putToNode env r).trace ++ (processEntries env rest).trace⟩
    else processEntries env rest

/-- One iteration of the `for (const { type, q } of resourceQueries)`
loop, `try`/`catch` included: a bundle-fetch failure or an escaped
delivery failure is absorbed, yielding the successes pushed so far. -/
def processType (env : Env) (ty : String) (u : String) : Nat × List Ev :=
  match env.getBundle ty u with
  | .error _ => (0, [Ev.fetchQuery ty u])
  | .ok b =>
    match b.entry with
    | none => (0, [Ev.fetchQuery ty u])
    | some entries =>
      ((processEntries env entries).delivered,
       Ev.fetchQuery ty u :: (processEntries env entries).trace)

/-- Successful deliveries contributed by one related-resource type. -/
def typeCount (env : Env) (ty : String) (u : String) : Nat :=
  (processType env ty u).1

/-- The `resourceQueries` list of `src/index.js` lines 132-144 (types
only; every query is `/<type>?encounter=<uuid>`). -/
def relatedTypes : List String :=
  ["Observation", "Condition", "Procedure", "MedicationRequest", "Medication",
   "AllergyIntolerance", "DiagnosticReport", "Immunization", "CarePlan",
   "Appointment", "DocumentReference"]

/-- The full related-resource loop over a list of types. -/
def processTypes (env : Env) (u : String) : List String → Nat × List Ev
  | [] => (0, [])
  | ty :: rest =>
    ((processType env ty u).1 + (processTypes env u rest).1,
     (processType env ty u).2 ++ (processTypes env u rest).2)

/-- Step 2 of the handler: extract the patient id from the root record;
when truthy, fetch and deliver the Patient, either failure propagating
(fatal); otherwise skip.  Returns the subject contribution to `results`
(0 or 1) or the thrown error, and the trace. -/
def patientStep (env : Env) (enc : Resource) : Except (Option String) Nat × List Ev :=
  match extractPatientId enc.subjectRef with
  | none => (.ok 0, [])
  | some pid =>
    if pid.isEmpty then (.ok 0, [])
    else
      match env.getPatient pid with
      | .error e => (.error (some e), [Ev.fetchPatient pid])
      | .ok pat =>
        match (putToNode env pat).result with
        | .error e => (.error e, Ev.fetchPatient pid :: (putToNode env pat).trace)
        | .ok _ => (.ok 1, Ev.fetchPatient pid :: (putToNode env pat).trace)

/-- Body of the handler's `try` block for an admitted uuid: fetch and
deliver the Encounter (both fatal on failure), run the patient step,
then the related-resource loop; on success the value is
`results.length` = 1 (root) + subject contribution + per-type counts. -/
def runBody (env : Env) (u : String) : Except (Option String) Nat × List Ev :=
  match env.getEncounter u with
  | .error e => (.error (some e), [Ev.fetchEncounter u])
  | .ok enc =>
    match (putToNode env enc).result with
    | .error e => (.error e, Ev.fetchEncounter u :: (putToNode env enc).trace)
    | .ok _ =>
      match patientStep env enc with
      | (.error e, ptr) =>
        (.error e, Ev.fetchEncounter u :: (putToNode env enc).trace ++ ptr)
      | (.ok pc, ptr) =>
        (.ok (1 + pc + (processTypes env u relatedTypes).1),
         Ev.fetchEncounter u :: (putToNode env enc).trace ++ ptr
           ++ (processTypes env u relatedTypes).2)

/-- JSON body of the responses the handler sends. -/
inductive RespBody where
  | missingUuid
  | duplicado (uuid : String)
  | ok (uuid : String) (sent : Nat)
  | err (msg : Option String)
deriving Repr, DecidableEq

/-- HTTP response: status code and body. -/
structure Response where
  status : Nat
  body : RespBody
deriving Repr, DecidableEq

/-- The `uuid` value read from the request body, with JS truthiness for
the shapes the claims mention (absent, number, string). -/
inductive UuidVal where
  | undef
  | num (n : Int)
  | str (s : String)
deriving Repr, DecidableEq

/-- JS truthiness of the uuid value (`if (!uuid)`). -/
def UuidVal.truthy : UuidVal → Bool
  | .undef => false
  | .num n => n != 0
  | .str s => !s.isEmpty

/-- String interpolation of the uuid into URLs. -/
def UuidVal.toStr : UuidVal → String
  | .undef => "undefined"
  | .num n => toString n
  | .str s => s

/-- What one `POST /event` call produces: the response, the `seen` set
after the call, and the trace of observable events. -/
structure EventResult where
  resp : Response
  seenAfter : List UuidVal
  trace : List Ev
deriving Repr, DecidableEq

/-- The `POST /event` handler (`src/index.js` lines 97-170): falsy uuid
is rejected with 400 before admission; a uuid already in `seen` answers
200 `duplicado` untouched; otherwise the uuid is added to `seen` and a
persist initiated before the first fetch, and the body runs, answering
200 `ok` with `results.length` or 500 with the thrown error's message. -/
def processEvent (env : Env) (seen : List UuidVal) (u : UuidVal) : EventResult :=
  if !u.truthy then ⟨⟨400, .missingUuid⟩, seen, []⟩
  else if u ∈ seen then ⟨⟨200, .duplicado u.toStr⟩, seen, []⟩
  else
    match runBody env u.toStr with
    | (.ok n, tr) =>
      ⟨⟨200, .ok u.toStr n⟩, seen ++ [u], Ev.markSeen u.toStr :: Ev.persist :: tr⟩
    | (.error e, tr) =>
      ⟨⟨500, .err e⟩, seen ++ [u], Ev.markSeen u.toStr :: Ev.persist :: tr⟩

/-- State of the persisted `seen.json` store at startup. -/
inductive StoreState where
  | missing
  | corrupt
  | ok (ids : List UuidVal)
deriving Repr, DecidableEq

/-- Startup load (`src/index.js` lines 42-48): a missing file or a file
whose parse/construction throws leaves the freshly initialised empty
set; otherwise the persisted identifiers are loaded. -/
def loadSeen : StoreState → List UuidVal
  | .missing => []
  | .corrupt => []
  | .ok ids => ids

/-! ## Helper lemmas: retry executor -/

/-- Expected backoff trace: the waits `500*(attempt+1), 500*(attempt+2), ...`
performed by `k` consecutive failed attempts starting at counter `attempt`. -/
def waitSeq (attempt : Nat) : Nat → List Ev
  | 0 => []
  | k + 1 => Ev.wait (500 * (attempt + 1)) :: waitSeq (attempt + 1) k

theorem waitSeq_eq_range (a k : Nat) :
    waitSeq a k = (List.range k).map (fun j => Ev.wait (500 * (a + 1 + j))) := by
  induction k generalizing a with
  | zero => rfl
  | succ k ih =>
    rw [waitSeq, ih (a + 1), List.range_succ_eq_map, List.map_cons, List.map_map]
    refine congrArg₂ _ (by norm_num) (List.map_congr_left fun j hj => ?_)
    simp [Function.comp]
    omega

theorem retryGo_succ (fn : Nat → Except String α × List Ev) (fuel attempt : Nat)
    (la : Option String) :
    retryGo fn (fuel + 1) attempt la =
      match fn attempt with
      | (.ok v, tr) => ⟨.ok v, attempt + 1, tr⟩
      | (.error e, tr) =>
        ⟨(retryGo fn fuel (attempt + 1) (some e)).result,
         (retryGo fn fuel (attempt + 1) (some e)).calls,
         tr ++ Ev.wait (500 * (attempt + 1)) :: (retryGo fn fuel (attempt + 1) (some e)).trace⟩ :=
  rfl

theorem retryGoDebug_succ (fn : Nat → Except String α × List Ev) (maxRetries fuel attempt : Nat)
    (la : Option String) :
    retryGoDebug fn maxRetries (fuel + 1) attempt la =
      match fn attempt with
      | (.ok v, tr) => ⟨.ok v, attempt + 1, tr⟩
      | (.error e, tr) =>
        ⟨(retryGoDebug fn maxRetries fuel (attempt + 1) (some e)).result,
         (retryGoDebug fn maxRetries fuel (attempt + 1) (some e)).calls,
         tr ++ (if attempt + 1 < maxRetries then [Ev.wait (500 * (attempt + 1))] else [])
            ++ (retryGoDebug fn maxRetries fuel (attempt + 1) (some e)).trace⟩ :=
  rfl

theorem retryGo_ok (fn : Nat → Except String α) (e : Nat → String) (v : α) :
    ∀ (k fuel attempt : Nat) (la : Option String), k < fuel →
      (∀ i, i < k → fn (attempt + i) = .error (e (attempt + i))) →
      fn (attempt + k) = .ok v →
      retryGo (pureOp fn) fuel attempt la = ⟨.ok v, attempt + k + 1, waitSeq attempt k⟩ := by
  intro k
  induction k with
  | zero =>
    intro fuel attempt la hk hf hok
    obtain ⟨f, rfl⟩ : ∃ f, fuel = f + 1 := ⟨fuel - 1, by omega⟩
    simp only [Nat.add_zero] at hok
    simp [retryGo, pureOp, hok, waitSeq]
  | succ k ih =>
    intro fuel attempt la hk hf hok
    obtain ⟨f, rfl⟩ : ∃ f, fuel = f + 1 := ⟨fuel - 1, by omega⟩
    have h0 : fn attempt = .error (e attempt) := by simpa using hf 0 (Nat.succ_pos k)
    have hrest := ih f (attempt + 1) (some (e attempt)) (by omega)
      (fun i hi => by
        have := hf (i + 1) (by omega)
        simpa [Nat.add_assoc, Nat.add_comm 1 i] using this)
      (by simpa [Nat.add_assoc, Nat.add_comm 1 k] using hok)
    simp [retryGo, pureOp, h0, hrest, waitSeq]
    omega

theorem retryGo_fail (fn : Nat → Except String α) (e : Nat → String) :
    ∀ (fuel attempt : Nat) (la : Option String),
      (∀ i, attempt ≤ i → i < attempt + fuel + 1 → fn i = .error (e i)) →
      retryGo (pureOp fn) (fuel + 1) attempt la =
        ⟨.error (some (e (attempt + fuel))), attempt + fuel + 1, waitSeq attempt (fuel + 1)⟩ := by
  intro fuel
  induction fuel with
  | zero =>
    intro attempt la hf
    have h0 : fn attempt = .error (e attempt) := hf attempt le_rfl (by omega)
    simp [retryGo, pureOp, h0, waitSeq]
  | succ f ih =>
    intro attempt la hf
    have h0 : fn attempt = .error (e attempt) := hf attempt le_rfl (by omega)
    have hrest := ih (attempt + 1) (some (e attempt)) (fun i h1 h2 => hf i (by omega) (by omega))
    have hidx : attempt + 1 + f = attempt + (f + 1) := by omega
    rw [retryGo_succ]
    simp only [pureOp, h0]
    rw [hrest]
    simp only [hidx, waitSeq, List.nil_append]

theorem retryGoDebug_ok (fn : Nat → Except String α) (e : Nat → String) (v : α) (N : Nat) :
    ∀ (k fuel attempt : Nat) (la : Option String), k < fuel → attempt + fuel ≤ N →
      (∀ i, i < k → fn (attempt + i) = .error (e (attempt + i))) →
      fn (attempt + k) = .ok v →
      retryGoDebug (pureOp fn) N fuel attempt la = ⟨.ok v, attempt + k + 1, waitSeq attempt k⟩ := by
  intro k
  induction k with
  | zero =>
    intro fuel attempt la hk hN hf hok
    obtain ⟨f, rfl⟩ : ∃ f, fuel = f + 1 := ⟨fuel - 1, by omega⟩
    simp only [Nat.add_zero] at hok
    simp [retryGoDebug, pureOp, hok, waitSeq]
  | succ k ih =>
    intro fuel attempt la hk hN hf hok
    obtain ⟨f, rfl⟩ : ∃ f, fuel = f + 1 := ⟨fuel - 1, by omega⟩
    have h0 : fn attempt = .error (e attempt) := by simpa using hf 0 (Nat.succ_pos k)
    have hlt : attempt + 1 < N := by omega
    have hrest := ih f (attempt + 1) (some (e attempt)) (by omega) (by omega)
      (fun i hi => by
        have := hf (i + 1) (by omega)
        simpa [Nat.add_assoc, Nat.add_comm 1 i] using this)
      (by simpa [Nat.add_assoc, Nat.add_comm 1 k] using hok)
    simp [retryGoDebug, pureOp, h0, hrest, waitSeq, hlt]
    omega

theorem retryGoDebug_fail (fn : Nat → Except String α) (e : Nat → String) (N : Nat) :
    ∀ (fuel attempt : Nat) (la : Option String), attempt + fuel + 1 = N →
      (∀ i, i < N → fn i = .error (e i)) →
      retryGoDebug (pureOp fn) N (fuel + 1) attempt la =
        ⟨.error (some (e (attempt + fuel))), attempt + fuel + 1, waitSeq attempt fuel⟩ := by
  intro fuel
  induction fuel with
  | zero =>
    intro attempt la hN hf
    have h0 : fn attempt = .error (e attempt) := hf attempt (by omega)
    have hge : ¬ attempt + 1 < N := by omega
    simp [retryGoDebug, pureOp, h0, waitSeq, hge]
  | succ f ih =>
    intro attempt la hN hf
    have h0 : fn attempt = .error (e attempt) := hf attempt (by omega)
    have hlt : attempt + 1 < N := by omega
    have hrest := ih (attempt + 1) (some (e attempt)) (by omega) hf
    have hidx : attempt + 1 + f = attempt + (f + 1) := by omega
    rw [retryGoDebug_succ]
    simp only [pureOp, h0]
    rw [hrest]
    simp only [hidx, hlt, if_pos, waitSeq, List.nil_append, List.singleton_append]

/-! ## Helper lemmas: the handler never reads the persistence outcome -/

theorem putToNode_congr (env1 env2 : Env) (h : env1.putOutcome = env2.putOutcome)
    (r : Resource) : putToNode env1 r = putToNode env2 r := by
  simp [putToNode, h]

theorem processEntries_congr (env1 env2 : Env) (h : env1.putOutcome = env2.putOutcome)
    (l : List (Option Resource)) : processEntries env1 l = processEntries env2 l := by
  induction l with
  | nil => rfl
  | cons o rest ih =>
    cases o with
    | none => simpa [processEntries] using ih
    | some r => simp [processEntries, putToNode_congr env1 env2 h r, ih]

theorem processType_congr (env1 env2 : Env) (h3 : env1.getBundle = env2.getBundle)
    (h4 : env1.putOutcome = env2.putOutcome) (ty u : String) :
    processType env1 ty u = processType env2 ty u := by
  simp [processType, h3, processEntries_congr env1 env2 h4]

theorem processTypes_congr (env1 env2 : Env) (h3 : env1.getBundle = env2.getBundle)
    (h4 : env1.putOutcome = env2.putOutcome) (u : String) (l : List String) :
    processTypes env1 u l = processTypes env2 u l := by
  induction l with
  | nil => rfl
  | cons ty rest ih => simp [processTypes, processType_congr env1 env2 h3 h4, ih]

theorem patientStep_congr (env1 env2 : Env) (h2 : env1.getPatient = env2.getPatient)
    (h4 : env1.putOutcome = env2.putOutcome) (enc : Resource) :
    patientStep env1 enc = patientStep env2 enc := by
  simp [patientStep, h2, putToNode_congr env1 env2 h4]

theorem runBody_congr (env1 env2 : Env) (h1 : env1.getEncounter = env2.getEncounter)
    (h2 : env1.getPatient = env2.getPatient) (h3 : env1.getBundle = env2.getBundle)
    (h4 : env1.putOutcome = env2.putOutcome) (u : String) :
    runBody env1 u = runBody env2 u := by
  simp [runBody, h1, putToNode_congr env1 env2 h4, patientStep_congr env1 env2 h2 h4,
    processTypes_congr env1 env2 h3 h4]

theorem processEvent_congr (env1 env2 : Env) (h1 : env1.getEncounter = env2.getEncounter)
    (h2 : env1.getPatient = env2.getPatient) (h3 : env1.getBundle = env2.getBundle)
    (h4 : env1.putOutcome = env2.putOutcome) (seen : List UuidVal) (u : UuidVal) :
    processEvent env1 seen u = processEvent env2 seen u := by
  simp [processEvent, runBody_congr env1 env2 h1 h2 h3 h4]

/-! ## Helper lemmas: attempt counts and traces of the retry executor -/

theorem retryGo_calls_bounds (fn : Nat → Except String α × List Ev) :
    ∀ (fuel attempt : Nat) (la : Option String),
      attempt ≤ (retryGo fn fuel attempt la).calls ∧
      (retryGo fn fuel attempt la).calls ≤ attempt + fuel ∧
      (0 < fuel → attempt < (retryGo fn fuel attempt la).calls) := by
  intro fuel
  induction fuel with
  | zero => intro a la; simp [retryGo]
  | succ f ih =>
    intro a la
    rw [retryGo_succ]
    rcases hfa : fn a with ⟨res, tr⟩
    cases res with
    | ok v => simp
    | error e =>
      have := ih (a + 1) (some e)
      simp
      omega

theorem retryGo_count_putAttempt (fn : Nat → Except String α × List Ev) (rt rid : String)
    (hfn : ∀ a, (fn a).2 = [Ev.putAttempt rt rid]) :
    ∀ (fuel attempt : Nat) (la : Option String),
      (retryGo fn fuel attempt la).trace.count (Ev.putAttempt rt rid) =
        (retryGo fn fuel attempt la).calls - attempt := by
  intro fuel
  induction fuel with
  | zero => intro a la; simp [retryGo]
  | succ f ih =>
    intro a la
    rw [retryGo_succ]
    rcases hfa : fn a with ⟨res, tr⟩
    have htr : tr = [Ev.putAttempt rt rid] := by
      have := hfn a
      rw [hfa] at this
      exact this
    cases res with
    | ok v => simp [htr]
    | error e =>
      have hbd := retryGo_calls_bounds fn f (a + 1) (some e)
      have hc := ih (a + 1) (some e)
      simp [htr, List.count_cons]
      omega

/-- Events a delivery can emit: its own PUT attempts and backoff waits. -/
def putLike (ev : Ev) : Prop :=
  (∃ rt rid, ev = Ev.putAttempt rt rid) ∨ ∃ w, ev = Ev.wait w

theorem retryGo_trace_pred (P : Ev → Prop) (fn : Nat → Except String α × List Ev)
    (hfn : ∀ a ev, ev ∈ (fn a).2 → P ev) (hw : ∀ w, P (Ev.wait w)) :
    ∀ (fuel attempt : Nat) (la : Option String) (ev : Ev),
      ev ∈ (retryGo fn fuel attempt la).trace → P ev := by
  intro fuel
  induction fuel with
  | zero => intro a la ev h; simp [retryGo] at h
  | succ f ih =>
    intro a la ev h
    rw [retryGo_succ] at h
    rcases hfa : fn a with ⟨res, tr⟩
    rw [hfa] at h
    have htr : ∀ ev ∈ tr, P ev := by
      intro ev hev
      exact hfn a ev (by rw [hfa]; exact hev)
    cases res with
    | ok v => exact htr ev h
    | error e =>
      simp only [List.mem_append, List.mem_cons] at h
      rcases h with h | h | h
      · exact htr ev h
      · exact h ▸ hw _
      · exact ih (a + 1) (some e) ev h

theorem retryGo_trace_putLike (fn : Nat → Except String α × List Ev)
    (hfn : ∀ a ev, ev ∈ (fn a).2 → putLike ev) :
    ∀ (fuel attempt : Nat) (la : Option String) (ev : Ev),
      ev ∈ (retryGo fn fuel attempt la).trace → putLike ev :=
  retryGo_trace_pred putLike fn hfn (fun w => Or.inr ⟨w, rfl⟩)

theorem putToNode_calls_le (env : Env) (r : Resource) :
    (putToNode env r).calls ≤ MAX_RETRIES :=
  (retryGo_calls_bounds _ MAX_RETRIES 0 none).2.1

theorem putToNode_calls_pos (env : Env) (r : Resource) :
    0 < (putToNode env r).calls :=
  (retryGo_calls_bounds _ MAX_RETRIES 0 none).2.2 (by decide)

theorem putToNode_count (env : Env) (r : Resource) :
    (putToNode env r).trace.count (Ev.putAttempt r.resourceType r.id) =
      (putToNode env r).calls := by
  have := retryGo_count_putAttempt
    (fun a => (env.putOutcome r.resourceType r.id a, [Ev.putAttempt r.resourceType r.id]))
    r.resourceType r.id (fun a => rfl) MAX_RETRIES 0 none
  simpa [putToNode, retryRequest] using this

theorem putToNode_trace_putLike (env : Env) (r : Resource) :
    ∀ ev ∈ (putToNode env r).trace, putLike ev := by
  intro ev h
  exact retryGo_trace_putLike _
    (fun a ev hev => Or.inl ⟨r.resourceType, r.id, by simpa using hev⟩)
    MAX_RETRIES 0 none ev h

theorem putToNode_trace_own (env : Env) (r : Resource) :
    ∀ ev ∈ (putToNode env r).trace,
      ev = Ev.putAttempt r.resourceType r.id ∨ ∃ w, ev = Ev.wait w := by
  intro ev h
  simp only [putToNode, retryRequest] at h
  exact retryGo_trace_pred
    (fun ev2 => ev2 = Ev.putAttempt r.resourceType r.id ∨ ∃ w, ev2 = Ev.wait w) _
    (fun a ev2 hev => Or.inl (by simpa using hev)) (fun w => Or.inr ⟨w, rfl⟩)
    MAX_RETRIES 0 none ev h

/-! ## Helper lemmas: the handler, evaluated case by case -/

theorem processEvent_rejected (env : Env) (seen : List UuidVal) (u : UuidVal)
    (hu : u.truthy = false) :
    processEvent env seen u = ⟨⟨400, .missingUuid⟩, seen, []⟩ := by
  simp [processEvent, hu]

theorem processEvent_duplicate (env : Env) (seen : List UuidVal) (u : UuidVal)
    (hu : u.truthy = true) (hs : u ∈ seen) :
    processEvent env seen u = ⟨⟨200, .duplicado u.toStr⟩, seen, []⟩ := by
  simp [processEvent, hu, hs]

theorem processEvent_admitted_ok (env : Env) (seen : List UuidVal) (u : UuidVal)
    (n : Nat) (tr : List Ev) (hu : u.truthy = true) (hs : u ∉ seen)
    (hb : runBody env u.toStr = (.ok n, tr)) :
    processEvent env seen u =
      ⟨⟨200, .ok u.toStr n⟩, seen ++ [u], Ev.markSeen u.toStr :: Ev.persist :: tr⟩ := by
  simp [processEvent, hu, hs, hb]

theorem processEvent_admitted_err (env : Env) (seen : List UuidVal) (u : UuidVal)
    (e : Option String) (tr : List Ev) (hu : u.truthy = true) (hs : u ∉ seen)
    (hb : runBody env u.toStr = (.error e, tr)) :
    processEvent env seen u =
      ⟨⟨500, .err e⟩, seen ++ [u], Ev.markSeen u.toStr :: Ev.persist :: tr⟩ := by
  simp [processEvent, hu, hs, hb]

theorem runBody_fetchFail (env : Env) (u : String) (e : String)
    (h : env.getEncounter u = .error e) :
    runBody env u = (.error (some e), [Ev.fetchEncounter u]) := by
  simp [runBody, h]

theorem runBody_rootPutFail (env : Env) (u : String) (enc : Resource) (e : Option String)
    (h1 : env.getEncounter u = .ok enc) (h2 : (putToNode env enc).result = .error e) :
    runBody env u = (.error e, Ev.fetchEncounter u :: (putToNode env enc).trace) := by
  simp [runBody, h1, h2]

theorem runBody_patFail (env : Env) (u : String) (enc : Resource) (s : Nat)
    (e : Option String) (ptr : List Ev)
    (h1 : env.getEncounter u = .ok enc) (h2 : (putToNode env enc).result = .ok s)
    (h3 : patientStep env enc = (.error e, ptr)) :
    runBody env u =
      (.error e, Ev.fetchEncounter u :: (putToNode env enc).trace ++ ptr) := by
  simp [runBody, h1, h2, h3]

theorem runBody_ok (env : Env) (u : String) (enc : Resource) (s : Nat)
    (pc : Nat) (ptr : List Ev)
    (h1 : env.getEncounter u = .ok enc) (h2 : (putToNode env enc).result = .ok s)
    (h3 : patientStep env enc = (.ok pc, ptr)) :
    runBody env u =
      (.ok (1 + pc + (processTypes env u relatedTypes).1),
       Ev.fetchEncounter u :: (putToNode env enc).trace ++ ptr
         ++ (processTypes env u relatedTypes).2) := by
  simp [runBody, h1, h2, h3]

theorem patientStep_skip (env : Env) (enc : Resource)
    (h : truthyOptStr (extractPatientId enc.subjectRef) = false) :
    patientStep env enc = (.ok 0, []) := by
  unfold patientStep
  cases hp : extractPatientId enc.subjectRef with
  | none => rfl
  | some pid =>
    rw [hp] at h
    have h2 : pid.isEmpty = true := by simpa [truthyOptStr] using h
    simp [h2]

theorem patientStep_fetchFail (env : Env) (enc : Resource) (pid : String) (e : String)
    (hp : extractPatientId enc.subjectRef = some pid) (hne : pid.isEmpty = false)
    (hg : env.getPatient pid = .error e) :
    patientStep env enc = (.error (some e), [Ev.fetchPatient pid]) := by
  simp [patientStep, hp, hne, hg]

theorem patientStep_putFail (env : Env) (enc pat : Resource) (pid : String) (e : Option String)
    (hp : extractPatientId enc.subjectRef = some pid) (hne : pid.isEmpty = false)
    (hg : env.getPatient pid = .ok pat) (hput : (putToNode env pat).result = .error e) :
    patientStep env enc = (.error e, Ev.fetchPatient pid :: (putToNode env pat).trace) := by
  simp [patientStep, hp, hne, hg, hput]

theorem patientStep_ok (env : Env) (enc pat : Resource) (pid : String) (s : Nat)
    (hp : extractPatientId enc.subjectRef = some pid) (hne : pid.isEmpty = false)
    (hg : env.getPatient pid = .ok pat) (hput : (putToNode env pat).result = .ok s) :
    patientStep env enc = (.ok 1, Ev.fetchPatient pid :: (putToNode env pat).trace) := by
  simp [patientStep, hp, hne, hg, hput]

theorem processType_fetchFail (env : Env) (ty u e : String)
    (h : env.getBundle ty u = .error e) :
    processType env ty u = (0, [Ev.fetchQuery ty u]) := by
  simp [processType, h]

theorem processTypes_fst (env : Env) (u : String) (l : List String) :
    (processTypes env u l).1 = (l.map (fun ty => typeCount env ty u)).sum := by
  induction l with
  | nil => simp [processTypes]
  | cons ty rest ih => simp [processTypes, typeCount, ih]

theorem processEntries_trace_putLike (env : Env) (l : List (Option Resource)) :
    ∀ ev ∈ (processEntries env l).trace, putLike ev := by
  induction l with
  | nil => simp [processEntries]
  | cons o rest ih =>
    cases o with
    | none => simpa [processEntries] using ih
    | some r =>
      intro ev hev
      by_cases hd : deliverable r
      · rw [processEntries, if_pos hd] at hev
        rcases hres : (putToNode env r).result with e | v
        · rw [hres] at hev
          exact putToNode_trace_putLike env r ev hev
        · rw [hres] at hev
          simp only [List.mem_append] at hev
          rcases hev with hev | hev
          · exact putToNode_trace_putLike env r ev hev
          · exact ih ev hev
      · rw [processEntries, if_neg hd] at hev
        exact ih ev hev

theorem processType_trace_shape (env : Env) (ty u : String) :
    ∃ rest, (processType env ty u).2 = Ev.fetchQuery ty u :: rest ∧
      ∀ ev ∈ rest, putLike ev := by
  cases hb : env.getBundle ty u with
  | error e => exact ⟨[], by simp [processType, hb], by simp⟩
  | ok b =>
    cases he : b.entry with
    | none => exact ⟨[], by simp [processType, hb, he], by simp⟩
    | some entries =>
      exact ⟨(processEntries env entries).trace, by simp [processType, hb, he],
        processEntries_trace_putLike env entries⟩

theorem putLike_counts (tr : List Ev) (h : ∀ ev ∈ tr, putLike ev)
    (s p ty q : String) :
    tr.count (Ev.fetchEncounter s) = 0 ∧ tr.count (Ev.fetchPatient p) = 0 ∧
    tr.count (Ev.fetchQuery ty q) = 0 := by
  refine ⟨List.count_eq_zero.2 fun hm => ?_, List.count_eq_zero.2 fun hm => ?_,
    List.count_eq_zero.2 fun hm => ?_⟩ <;>
    rcases h _ hm with ⟨rt, rid, he⟩ | ⟨w, he⟩ <;> simp at he

theorem processTypes_trace_mem (env : Env) (u : String) (l : List String) :
    ∀ ev ∈ (processTypes env u l).2,
      (∃ ty', ev = Ev.fetchQuery ty' u) ∨ putLike ev := by
  induction l with
  | nil => simp [processTypes]
  | cons ty rest ih =>
    intro ev hev
    obtain ⟨r, hr, hput⟩ := processType_trace_shape env ty u
    rw [processTypes, List.mem_append, hr] at hev
    rcases hev with hev | hev
    · rcases List.mem_cons.1 hev with hev | hev
      · exact Or.inl ⟨ty, hev⟩
      · exact Or.inr (hput ev hev)
    · exact ih ev hev

theorem processTypes_count_fetchQuery (env : Env) (u : String) (l : List String)
    (ty s : String) :
    ((processTypes env u l).2).count (Ev.fetchQuery ty s) =
      if s = u then l.count ty else 0 := by
  induction l with
  | nil => simp [processTypes]
  | cons ty' rest ih =>
    obtain ⟨r, hr, hput⟩ := processType_trace_shape env ty' u
    have hr0 : r.count (Ev.fetchQuery ty s) = 0 := (putLike_counts r hput s s ty s).2.2
    simp only [processTypes, List.count_append, hr, List.count_cons, hr0, ih]
    by_cases hsu : s = u
    · subst hsu
      by_cases hty : ty = ty' <;> simp [hty] <;> exact Nat.add_comm _ _
    · have hne : Ev.fetchQuery ty s ≠ Ev.fetchQuery ty' u := by
        intro h
        cases h
        exact hsu rfl
      simp [hsu, Ne.symm hne]

theorem processTypes_fetch_mem (env : Env) (u : String) (l : List String) (ty : String)
    (hty : ty ∈ l) : Ev.fetchQuery ty u ∈ (processTypes env u l).2 := by
  induction l with
  | nil => simp at hty
  | cons ty' rest ih =>
    rw [processTypes, List.mem_append]
    rcases List.mem_cons.1 hty with h | h
    · subst h
      obtain ⟨r, hr, _⟩ := processType_trace_shape env ty u
      exact Or.inl (by rw [hr]; exact List.mem_cons_self _ _)
    · exact Or.inr (ih h)

theorem relatedTypes_nodup : relatedTypes.Nodup := by decide

theorem count_singleton_le (a b : Ev) : List.count a [b] ≤ 1 := by
  simpa using List.count_le_length a [b]

theorem processTypes_counts_zero (env : Env) (u : String) (l : List String)
    (s p : String) :
    ((processTypes env u l).2).count (Ev.fetchEncounter s) = 0 ∧
    ((processTypes env u l).2).count (Ev.fetchPatient p) = 0 := by
  constructor <;> refine List.count_eq_zero.2 fun hm => ?_ <;>
    rcases processTypes_trace_mem env u l _ hm with ⟨ty', he⟩ | ⟨rt, rid, he⟩ | ⟨w, he⟩ <;>
    simp at he

theorem patientStep_trace_shape (env : Env) (enc : Resource) :
    (patientStep env enc).2 = [] ∨
    ∃ pid rest, (patientStep env enc).2 = Ev.fetchPatient pid :: rest ∧
      ∀ ev ∈ rest, putLike ev := by
  cases hp : extractPatientId enc.subjectRef with
  | none => exact Or.inl (by simp [patientStep, hp])
  | some pid =>
    by_cases hpe : pid.isEmpty = true
    · exact Or.inl (by simp [patientStep, hp, hpe])
    · have hpe2 : pid.isEmpty = false := by simpa using hpe
      cases hg : env.getPatient pid with
      | error e =>
        exact Or.inr ⟨pid, [], by simp [patientStep, hp, hpe2, hg], by simp⟩
      | ok pat =>
        cases hres : (putToNode env pat).result with
        | error e =>
          exact Or.inr ⟨pid, (putToNode env pat).trace,
            by simp [patientStep, hp, hpe2, hg, hres], putToNode_trace_putLike env pat⟩
        | ok s =>
          exact Or.inr ⟨pid, (putToNode env pat).trace,
            by simp [patientStep, hp, hpe2, hg, hres], putToNode_trace_putLike env pat⟩

theorem patientStep_counts (env : Env) (enc : Resource) (s p ty q : String) :
    ((patientStep env enc).2).count (Ev.fetchEncounter s) = 0 ∧
    ((patientStep env enc).2).count (Ev.fetchQuery ty q) = 0 ∧
    ((patientStep env enc).2).count (Ev.fetchPatient p) ≤ 1 := by
  rcases patientStep_trace_shape env enc with h | ⟨pid, rest, hsh, hrest⟩
  · simp [h]
  · obtain ⟨he0, hp0, hq0⟩ := putLike_counts rest hrest s p ty q
    rw [hsh]
    refine ⟨by simp [List.count_cons, he0], by simp [List.count_cons, hq0], ?_⟩
    have := count_singleton_le (Ev.fetchPatient p) (Ev.fetchPatient pid)
    calc (Ev.fetchPatient pid :: rest).count (Ev.fetchPatient p)
        = rest.count (Ev.fetchPatient p) + [Ev.fetchPatient pid].count (Ev.fetchPatient p) := by
          simp [List.count_cons]
      _ ≤ 1 := by
          rw [hp0]
          simpa using this

theorem runBody_counts (env : Env) (u s p ty q : String) :
    ((runBody env u).2).count (Ev.fetchEncounter s) = (if s = u then 1 else 0) ∧
    ((runBody env u).2).count (Ev.fetchPatient p) ≤ 1 ∧
    ((runBody env u).2).count (Ev.fetchQuery ty q) ≤ 1 := by
  have hbase : ∀ tr : List Ev,
      tr.count (Ev.fetchEncounter s) = 0 → tr.count (Ev.fetchPatient p) ≤ 1 →
      tr.count (Ev.fetchQuery ty q) ≤ 1 →
      ((Ev.fetchEncounter u :: tr).count (Ev.fetchEncounter s) = (if s = u then 1 else 0) ∧
       (Ev.fetchEncounter u :: tr).count (Ev.fetchPatient p) ≤ 1 ∧
       (Ev.fetchEncounter u :: tr).count (Ev.fetchQuery ty q) ≤ 1) := by
    intro tr h1 h2 h3
    refine ⟨?_, ?_, ?_⟩
    · by_cases hsu : s = u
      · subst hsu
        simp [List.count_cons, h1]
      · rw [List.count_cons_of_ne (by simp [hsu]), h1, if_neg hsu]
    · rw [List.count_cons_of_ne (by simp)]
      exact h2
    · rw [List.count_cons_of_ne (by simp)]
      exact h3
  cases he : env.getEncounter u with
  | error e =>
    rw [runBody_fetchFail env u e he]
    exact hbase [] (by simp) (by simp) (by simp)
  | ok enc =>
    obtain ⟨pe0, pp0, pq0⟩ :=
      putLike_counts (putToNode env enc).trace (putToNode_trace_putLike env enc) s p ty q
    cases hres : (putToNode env enc).result with
    | error e2 =>
      rw [runBody_rootPutFail env u enc e2 he hres]
      exact hbase _ pe0 (by omega) (by omega)
    | ok s2 =>
      rcases hps : patientStep env enc with ⟨pres, ptr⟩
      obtain ⟨ce0, cq0, cp1⟩ := patientStep_counts env enc s p ty q
      rw [hps] at ce0 cq0 cp1
      simp only at ce0 cq0 cp1
      cases pres with
      | error e3 =>
        rw [runBody_patFail env u enc s2 e3 ptr he hres hps]
        refine hbase _ ?_ ?_ ?_ <;> (simp [List.count_append, pe0, pp0, pq0, ce0, cq0]; try omega)
      | ok pc =>
        rw [runBody_ok env u enc s2 pc ptr he hres hps]
        obtain ⟨te0, tp0⟩ := processTypes_counts_zero env u relatedTypes s p
        have tq1 : ((processTypes env u relatedTypes).2).count (Ev.fetchQuery ty q) ≤ 1 := by
          rw [processTypes_count_fetchQuery]
          have := List.nodup_iff_count_le_one.1 relatedTypes_nodup ty
          by_cases hqu : q = u <;> simp [hqu]
          omega
        refine hbase _ ?_ ?_ ?_ <;>
          simp [List.count_append, pe0, pp0, pq0, ce0, cq0, te0, tp0] <;> omega

theorem runBody_trace_cons (env : Env) (u : String) :
    ∃ rest, (runBody env u).2 = Ev.fetchEncounter u :: rest := by
  cases he : env.getEncounter u with
  | error e => exact ⟨[], by rw [runBody_fetchFail env u e he]⟩
  | ok enc =>
    cases hres : (putToNode env enc).result with
    | error e2 =>
      exact ⟨(putToNode env enc).trace, by rw [runBody_rootPutFail env u enc e2 he hres]⟩
    | ok s2 =>
      rcases hps : patientStep env enc with ⟨pres, ptr⟩
      cases pres with
      | error e3 =>
        exact ⟨(putToNode env enc).trace ++ ptr,
          by rw [runBody_patFail env u enc s2 e3 ptr he hres hps]; simp⟩
      | ok pc =>
        exact ⟨(putToNode env enc).trace ++ ptr ++ (processTypes env u relatedTypes).2,
          by rw [runBody_ok env u enc s2 pc ptr he hres hps]; simp⟩

theorem processEvent_counts (env : Env) (seen : List UuidVal) (u : UuidVal)
    (s p ty q : String) (hu : u.truthy = true) (hs : u ∉ seen) :
    (processEvent env seen u).trace.count (Ev.fetchEncounter s) =
      (if s = u.toStr then 1 else 0) ∧
    (processEvent env seen u).trace.count (Ev.fetchPatient p) ≤ 1 ∧
    (processEvent env seen u).trace.count (Ev.fetchQuery ty q) ≤ 1 := by
  obtain ⟨h1, h2, h3⟩ := runBody_counts env u.toStr s p ty q
  have hpre : ∀ tr : List Ev,
      (Ev.markSeen u.toStr :: Ev.persist :: tr).count (Ev.fetchEncounter s) =
        tr.count (Ev.fetchEncounter s) ∧
      (Ev.markSeen u.toStr :: Ev.persist :: tr).count (Ev.fetchPatient p) =
        tr.count (Ev.fetchPatient p) ∧
      (Ev.markSeen u.toStr :: Ev.persist :: tr).count (Ev.fetchQuery ty q) =
        tr.count (Ev.fetchQuery ty q) := by
    intro tr
    refine ⟨?_, ?_, ?_⟩ <;>
      rw [List.count_cons_of_ne (by simp), List.count_cons_of_ne (by simp)]
  rcases hb : runBody env u.toStr with ⟨res, tr⟩
  rw [hb] at h1 h2 h3
  simp only at h1 h2 h3
  cases res with
  | ok n =>
    rw [processEvent_admitted_ok env seen u n tr hu hs hb]
    obtain ⟨g1, g2, g3⟩ := hpre tr
    simp only [g1, g2, g3]
    exact ⟨h1, h2, h3⟩
  | error e =>
    rw [processEvent_admitted_err env seen u e tr hu hs hb]
    obtain ⟨g1, g2, g3⟩ := hpre tr
    simp only [g1, g2, g3]
    exact ⟨h1, h2, h3⟩

/-! ## Helper lemmas: the per-type entry loop -/

theorem processEntries_cons_fail (env : Env) (bad : Resource)
    (post : List (Option Resource)) (eb : Option String)
    (hdel : deliverable bad = true) (hput : (putToNode env bad).result = .error eb) :
    processEntries env (some bad :: post) = ⟨0, some eb, (putToNode env bad).trace⟩ := by
  simp [processEntries, hdel, hput]

theorem processEntries_aborted_none (env : Env) (pre : List (Option Resource))
    (hpre : ∀ r : Resource, some r ∈ pre → deliverable r = true →
      ∃ sc, (putToNode env r).result = .ok sc) :
    (processEntries env pre).aborted = none := by
  induction pre with
  | nil => rfl
  | cons o rest ih =>
    have ih2 := ih (fun r hr hd => hpre r (List.mem_cons_of_mem o hr) hd)
    cases o with
    | none => simpa [processEntries] using ih2
    | some r =>
      by_cases hd : deliverable r
      · obtain ⟨sc, hsc⟩ := hpre r (List.mem_cons_self _ _) hd
        simp [processEntries, hd, hsc, ih2]
      · simpa [processEntries, hd] using ih2

theorem processEntries_append (env : Env) (pre rest : List (Option Resource))
    (h : (processEntries env pre).aborted = none) :
    processEntries env (pre ++ rest) =
      ⟨(processEntries env pre).delivered + (processEntries env rest).delivered,
       (processEntries env rest).aborted,
       (processEntries env pre).trace ++ (processEntries env rest).trace⟩ := by
  induction pre with
  | nil =>
    rcases hr : processEntries env rest with ⟨d, ab, tr⟩
    simp [processEntries, hr]
  | cons o pre2 ih =>
    cases o with
    | none =>
      rw [processEntries] at h
      simpa [processEntries] using ih h
    | some r =>
      by_cases hd : deliverable r
      · cases hres : (putToNode env r).result with
        | error e =>
          rw [processEntries_cons_fail env r pre2 e hd hres] at h
          simp at h
        | ok sc =>
          have h2 : (processEntries env pre2).aborted = none := by
            rw [processEntries, if_pos hd, hres] at h
            simpa using h
          have ih2 := ih h2
          rw [List.cons_append, processEntries, if_pos hd, hres,
            processEntries, if_pos hd, hres, ih2]
          simp [List.append_assoc]
          omega
      · rw [processEntries, if_neg hd] at h
        rw [List.cons_append, processEntries, if_neg hd, processEntries, if_neg hd]
        exact ih h

/-! ## Concrete operations and environments used by witnesses -/

/-- Delivery operation that fails on every attempt with the same message. -/
def alwaysBoom : Nat → Except String Unit := fun _ => .error "boom"

/-- Delivery operation that fails on every attempt with a distinct,
attempt-numbered message (a run of that many x characters). -/
def failSeq : Nat → Except String Unit :=
  fun a => .error (String.mk (List.replicate a 'x'))

/-- Delivery operation that fails once, then succeeds. -/
def okAfterOne : Nat → Except String Nat :=
  fun a => if a < 1 then .error "transient" else .ok 7

/-- Environment of the spec's example scenario: Encounter with a subject
reference, two Observations, Condition fetch failing, all other related
types empty, every PUT accepted. -/
def envGood : Env :=
  { getEncounter := fun uu => .ok ⟨"Encounter", uu, some "Patient/pat-1"⟩
    getPatient := fun p => .ok ⟨"Patient", p, none⟩
    getBundle := fun ty _uu =>
      if ty = "Condition" then .error "condition down"
      else if ty = "Observation" then
        .ok ⟨some [some ⟨"Observation", "obs-1", none⟩, some ⟨"Observation", "obs-2", none⟩]⟩
      else .ok ⟨none⟩
    putOutcome := fun _ _ _ => .ok 200
    persistOutcome := .ok () }

/-- Like `envGood` but the root Encounter fetch fails. -/
def envRootFail : Env := { envGood with getEncounter := fun _ => .error "proxy down" }

/-- Like `envGood` but every delivery attempt is rejected, so the root
Encounter delivery exhausts its retries. -/
def envRootPutFail : Env :=
  { envGood with putOutcome := fun _ _ _ => .error "node down" }

/-- Like `envGood` but the Patient fetch fails. -/
def envPatFail : Env := { envGood with getPatient := fun _ => .error "patient down" }

/-- Like `envGood` but every Patient delivery attempt is rejected. -/
def envPatPutFail : Env :=
  { envGood with putOutcome := fun rt _ _ =>
      if rt = "Patient" then .error "patient rejected" else .ok 200 }

/-- Like `envGood` but the root record carries no subject reference. -/
def envNoSubject : Env :=
  { envGood with getEncounter := fun uu => .ok ⟨"Encounter", uu, none⟩ }

def obsGood1 : Resource := ⟨"Observation", "obs-1", none⟩

def obsBad : Resource := ⟨"Observation", "obs-bad", none⟩

def obsGood2 : Resource := ⟨"Observation", "obs-2", none⟩

/-- Environment for the mid-collection delivery failure: a subject-free
Encounter and an Observation bundle whose middle record is rejected by
the sink on every attempt. -/
def envMidFail : Env :=
  { getEncounter := fun uu => .ok ⟨"Encounter", uu, none⟩
    getPatient := fun p => .ok ⟨"Patient", p, none⟩
    getBundle := fun ty _uu =>
      if ty = "Observation" then .ok ⟨some [some obsGood1, some obsBad, some obsGood2]⟩
      else .ok ⟨none⟩
    putOutcome := fun _ rid _ =>
      if rid = "obs-bad" then .error "node rejects" else .ok 200
    persistOutcome := .ok () }

/-! ## The claims -/

theorem waitSeq_zero (k : Nat) :
    waitSeq 0 k = (List.range k).map (fun j => Ev.wait (500 * (j + 1))) := by
  rw [waitSeq_eq_range]
  exact List.map_congr_left fun j hj => by
    have : 0 + 1 + j = j + 1 := by omega
    rw [this]

/-- C1 counterexample: the claim predicts backoff waits `500, 1000` and
no wait after the final attempt for an always-failing operation with the
default budget 3, but the retryRequest of src/index.js sleeps after its
final failed attempt as well, performing waits `500, 1000, 1500`. -/
theorem c1_counterexample :
    (retryRequest (pureOp alwaysBoom) 3).calls = 3 ∧
    (retryRequest (pureOp alwaysBoom) 3).trace = [Ev.wait 500, Ev.wait 1000, Ev.wait 1500] ∧
    (retryRequest (pureOp alwaysBoom) 3).trace ≠ [Ev.wait 500, Ev.wait 1000] := by
  refine ⟨by decide, by decide, by decide⟩

/-- C1 (amended): with budget N and base 500ms, an operation failing
exactly k < N times then succeeding returns success after exactly k+1
attempts with waits 500*1..500*k, in both retryRequest variants; an
always-failing operation fails after exactly N attempts, where the
variant of src/index.js performs waits 500*1..500*N (one wait after
every failed attempt, the final one included) while the variant of
src/unnamed/part_000 guards the final wait and performs 500*1..500*(N-1)
as the claim states. -/
theorem c1_retry_policy (α β : Type) (fn : Nat → Except String α)
    (gn : Nat → Except String β) (N k : Nat) (v : α) (e d : Nat → String)
    (hk : k < N) (hfail : ∀ i, i < k → fn i = .error (e i)) (hok : fn k = .ok v)
    (hg : ∀ i, i < N → gn i = .error (d i)) (hN : 0 < N) :
    retryRequest (pureOp fn) N =
      ⟨.ok v, k + 1, (List.range k).map (fun j => Ev.wait (500 * (j + 1)))⟩ ∧
    retryRequestDebug (pureOp fn) N =
      ⟨.ok v, k + 1, (List.range k).map (fun j => Ev.wait (500 * (j + 1)))⟩ ∧
    retryRequest (pureOp gn) N =
      ⟨.error (some (d (N - 1))), N, (List.range N).map (fun j => Ev.wait (500 * (j + 1)))⟩ ∧
    retryRequestDebug (pureOp gn) N =
      ⟨.error (some (d (N - 1))), N,
       (List.range (N - 1)).map (fun j => Ev.wait (500 * (j + 1)))⟩ := by
  obtain ⟨M, rfl⟩ : ∃ M, N = M + 1 := ⟨N - 1, by omega⟩
  have hfail0 : ∀ i, i < k → fn (0 + i) = .error (e (0 + i)) := by
    intro i hi
    simpa using hfail i hi
  have hok0 : fn (0 + k) = .ok v := by simpa using hok
  refine ⟨?_, ?_, ?_, ?_⟩
  · rw [retryRequest, retryGo_ok fn e v k (M + 1) 0 none hk hfail0 hok0, waitSeq_zero]
    norm_num
  · rw [retryRequestDebug,
      retryGoDebug_ok fn e v (M + 1) k (M + 1) 0 none hk (by omega) hfail0 hok0, waitSeq_zero]
    norm_num
  · rw [retryRequest, retryGo_fail gn d M 0 none (fun i h1 h2 => hg i (by omega)), waitSeq_zero]
    simp
  · rw [retryRequestDebug, retryGoDebug_fail gn d (M + 1) M 0 none (by omega) hg, waitSeq_zero]
    simp

/-- C1 witness: the amended policy at budget 3 on a fail-once operation
and on an always-failing operation. -/
theorem c1_retry_policy_witness :
    retryRequest (pureOp okAfterOne) 3 = ⟨.ok 7, 2, [Ev.wait 500]⟩ ∧
    retryRequestDebug (pureOp okAfterOne) 3 = ⟨.ok 7, 2, [Ev.wait 500]⟩ ∧
    retryRequest (pureOp alwaysBoom) 3 =
      ⟨.error (some "boom"), 3, [Ev.wait 500, Ev.wait 1000, Ev.wait 1500]⟩ ∧
    retryRequestDebug (pureOp alwaysBoom) 3 =
      ⟨.error (some "boom"), 3, [Ev.wait 500, Ev.wait 1000]⟩ := by
  have h := c1_retry_policy Nat Unit okAfterOne alwaysBoom 3 1 7
    (fun _ => "transient") (fun _ => "boom") (by omega)
    (fun i hi => by
      have : i = 0 := by omega
      subst this
      rfl)
    rfl (fun i hi => rfl) (by omega)
  obtain ⟨h1, h2, h3, h4⟩ := h
  refine ⟨?_, ?_, ?_, ?_⟩
  · rw [h1]
    norm_num [List.range_succ]
  · rw [h2]
    norm_num [List.range_succ]
  · rw [h3]
    norm_num [List.range_succ]
  · rw [h4]
    norm_num [List.range_succ]

/-- C7: when the retry executor exhausts all N attempts, the raised
failure is exactly the error of the last (N-th) attempt, in both
variants; earlier attempts' errors do not appear in the result. -/
theorem c7_last_error_only (α : Type) (fn : Nat → Except String α) (N : Nat)
    (d : Nat → String) (hg : ∀ i, i < N → fn i = .error (d i)) (hN : 0 < N) :
    (retryRequest (pureOp fn) N).result = .error (some (d (N - 1))) ∧
    (retryRequestDebug (pureOp fn) N).result = .error (some (d (N - 1))) := by
  obtain ⟨M, rfl⟩ : ∃ M, N = M + 1 := ⟨N - 1, by omega⟩
  constructor
  · rw [retryRequest, retryGo_fail fn d M 0 none (fun i h1 h2 => hg i (by omega))]
    simp
  · rw [retryRequestDebug, retryGoDebug_fail fn d (M + 1) M 0 none (by omega) hg]
    simp

/-- C7 witness: an operation whose attempts fail with distinct messages
of 0, 1, 2 repeated characters exhausts budget 3 carrying only the
third attempt's message. -/
theorem c7_last_error_only_witness :
    (retryRequest (pureOp failSeq) 3).result = .error (some "xx") ∧
    (retryRequestDebug (pureOp failSeq) 3).result = .error (some "xx") :=
  c7_last_error_only Unit failSeq 3 (fun a => String.mk (List.replicate a 'x'))
    (fun i _ => rfl) (by omega)

/-- C8: the persistence outcome is never read by the handler — the
response, the updated seen set and the whole observable trace are
identical whether the store write succeeds or fails; and at startup a
missing or corrupt persisted store loads as the empty set. -/
theorem c8_persist_failure_swallowed (g1 g2 : String → Except String Resource)
    (g3 : String → String → Except String Bundle)
    (g4 : String → String → Nat → Except String Nat)
    (p1 p2 : Except String Unit) (seen : List UuidVal) (u : UuidVal) :
    processEvent ⟨g1, g2, g3, g4, p1⟩ seen u = processEvent ⟨g1, g2, g3, g4, p2⟩ seen u ∧
    loadSeen .missing = [] ∧ loadSeen .corrupt = [] := by
  refine ⟨?_, rfl, rfl⟩
  exact processEvent_congr ⟨g1, g2, g3, g4, p1⟩ ⟨g1, g2, g3, g4, p2⟩ rfl rfl rfl rfl seen u

/-- C10: a falsy uuid (empty string, zero, absent) is rejected with 400
by the handler itself before admission: the seen set is unchanged and
the trace is empty — no mark, no persist, no fetch, no delivery. -/
theorem c10_falsy_uuid_rejected (env : Env) (seen : List UuidVal) (u : UuidVal)
    (hu : u.truthy = false) :
    processEvent env seen u = ⟨⟨400, .missingUuid⟩, seen, []⟩ :=
  processEvent_rejected env seen u hu

/-- C10 witness: the empty-string uuid and the number 0 are both
rejected with 400, leaving the seen set and the outside world untouched. -/
theorem c10_falsy_uuid_rejected_witness :
    processEvent envGood [] (.str "") = ⟨⟨400, .missingUuid⟩, [], []⟩ ∧
    processEvent envGood [] (.num 0) = ⟨⟨400, .missingUuid⟩, [], []⟩ :=
  ⟨c10_falsy_uuid_rejected envGood [] (.str "") (by decide),
   c10_falsy_uuid_rejected envGood [] (.num 0) (by decide)⟩

/-- C2: admission is idempotent: a first call with a truthy, unseen uuid
marks it seen, initiates a persist and proceeds to the root fetch; the
uuid is in the resulting seen set, and any call whose uuid is already
seen answers 200 duplicado with an empty trace — no fetch, no delivery,
no state change. -/
theorem c2_idempotent_admission (env env2 : Env) (seen seen2 : List UuidVal) (u : UuidVal)
    (hu : u.truthy = true) (hs : u ∉ seen) :
    (∃ rest, (processEvent env seen u).trace =
      Ev.markSeen u.toStr :: Ev.persist :: Ev.fetchEncounter u.toStr :: rest) ∧
    u ∈ (processEvent env seen u).seenAfter ∧
    (u ∈ seen2 → processEvent env2 seen2 u = ⟨⟨200, .duplicado u.toStr⟩, seen2, []⟩) := by
  obtain ⟨rest, hr⟩ := runBody_trace_cons env u.toStr
  rcases hb : runBody env u.toStr with ⟨res, tr⟩
  rw [hb] at hr
  simp only at hr
  cases res with
  | ok n =>
    rw [processEvent_admitted_ok env seen u n tr hu hs hb]
    exact ⟨⟨rest, by rw [hr]⟩, by simp,
      fun hmem => processEvent_duplicate env2 seen2 u hu hmem⟩
  | error e =>
    rw [processEvent_admitted_err env seen u e tr hu hs hb]
    exact ⟨⟨rest, by rw [hr]⟩, by simp,
      fun hmem => processEvent_duplicate env2 seen2 u hu hmem⟩

/-- C2 witness: a fresh uuid is marked, persisted and fetched; repeating
it against the updated seen set yields duplicado with an empty trace. -/
theorem c2_idempotent_admission_witness :
    (processEvent envGood [] (.str "enc-1")).trace.take 3 =
      [Ev.markSeen "enc-1", Ev.persist, Ev.fetchEncounter "enc-1"] ∧
    UuidVal.str "enc-1" ∈ (processEvent envGood [] (.str "enc-1")).seenAfter ∧
    processEvent envGood [.str "enc-1"] (.str "enc-1") =
      ⟨⟨200, .duplicado "enc-1"⟩, [.str "enc-1"], []⟩ := by
  have h := c2_idempotent_admission envGood envGood [] [.str "enc-1"] (.str "enc-1")
    (by decide) (by simp)
  obtain ⟨⟨rest, hr⟩, h2, h3⟩ := h
  exact ⟨by rw [hr]; rfl, h2, h3 (by simp)⟩

/-- C4: the seen set is append-only and the id is recorded (and a
persist initiated) before the first upstream fetch; no call ever removes
an id; an admitted id stays marked even when the event aborts with a
fatal root-fetch error, whose repeat would therefore be a duplicate. -/
theorem c4_seen_append_only (env envF : Env) (seen : List UuidVal) (u : UuidVal)
    (eF : String) (hu : u.truthy = true) (hs : u ∉ seen)
    (hF : envF.getEncounter u.toStr = .error eF) :
    (processEvent env seen u).seenAfter = seen ++ [u] ∧
    (∃ rest, (processEvent env seen u).trace =
      Ev.markSeen u.toStr :: Ev.persist :: Ev.fetchEncounter u.toStr :: rest) ∧
    (∀ (env2 : Env) (seen2 : List UuidVal) (v x : UuidVal),
      x ∈ seen2 → x ∈ (processEvent env2 seen2 v).seenAfter) ∧
    (processEvent envF seen u).resp.status = 500 ∧
    u ∈ (processEvent envF seen u).seenAfter := by
  have hmono : ∀ (env2 : Env) (seen2 : List UuidVal) (v x : UuidVal),
      x ∈ seen2 → x ∈ (processEvent env2 seen2 v).seenAfter := by
    intro env2 seen2 v x hx
    by_cases hv : v.truthy = true
    · by_cases hvs : v ∈ seen2
      · rw [processEvent_duplicate env2 seen2 v hv hvs]
        exact hx
      · rcases hb : runBody env2 v.toStr with ⟨res, tr⟩
        cases res with
        | ok n =>
          rw [processEvent_admitted_ok env2 seen2 v n tr hv hvs hb]
          simp [hx]
        | error e =>
          rw [processEvent_admitted_err env2 seen2 v e tr hv hvs hb]
          simp [hx]
    · have hv2 : v.truthy = false := by simpa using hv
      rw [processEvent_rejected env2 seen2 v hv2]
      exact hx
  have hFev := processEvent_admitted_err envF seen u (some eF) [Ev.fetchEncounter u.toStr]
    hu hs (runBody_fetchFail envF u.toStr eF hF)
  refine ⟨?_, ?_, hmono, by rw [hFev], by rw [hFev]; simp⟩
  · rcases hb : runBody env u.toStr with ⟨res, tr⟩
    cases res with
    | ok n => rw [processEvent_admitted_ok env seen u n tr hu hs hb]
    | error e => rw [processEvent_admitted_err env seen u e tr hu hs hb]
  · obtain ⟨rest, hr⟩ := runBody_trace_cons env u.toStr
    rcases hb : runBody env u.toStr with ⟨res, tr⟩
    rw [hb] at hr
    simp only at hr
    cases res with
    | ok n =>
      rw [processEvent_admitted_ok env seen u n tr hu hs hb]
      exact ⟨rest, by rw [hr]⟩
    | error e =>
      rw [processEvent_admitted_err env seen u e tr hu hs hb]
      exact ⟨rest, by rw [hr]⟩

/-- C4 witness: admitting a fresh uuid appends it; a previously seen id
survives any further call; a fatal root-fetch failure still leaves the
admitted uuid in the seen set with a 500 response. -/
theorem c4_seen_append_only_witness :
    (processEvent envGood [] (.str "enc-4")).seenAfter = [.str "enc-4"] ∧
    (processEvent envGood [] (.str "enc-4")).trace.take 3 =
      [Ev.markSeen "enc-4", Ev.persist, Ev.fetchEncounter "enc-4"] ∧
    UuidVal.str "a" ∈ (processEvent envGood [.str "a"] (.str "enc-4")).seenAfter ∧
    (processEvent envRootFail [] (.str "enc-4")).resp.status = 500 ∧
    UuidVal.str "enc-4" ∈ (processEvent envRootFail [] (.str "enc-4")).seenAfter := by
  have h := c4_seen_append_only envGood envRootFail [] (.str "enc-4") "proxy down"
    (by decide) (by simp) rfl
  obtain ⟨h1, ⟨rest, hr⟩, h3, h4, h5⟩ := h
  exact ⟨h1, by rw [hr]; rfl, h3 envGood [.str "a"] (.str "enc-4") (.str "a") (by simp), h4, h5⟩

/-- C3: a root-fetch failure is fatal: the event answers 500 with the
thrown message and its whole trace is just admission plus the one failed
fetch — zero deliveries; a root delivery failure after exhausted retries
is equally fatal: the event answers 500 and its trace beyond admission
and the root fetch holds only the root record's own PUT attempts and
backoff waits — again zero deliveries and nothing else attempted;
whereas a fetch failure of one related type is isolated: with root and
subject succeeding the response is 200 ok and the count is root +
subject + the per-type sums, the failed type contributing zero. -/
theorem c3_fatal_root_isolated_type (env1 env2 : Env) (seen : List UuidVal) (u : UuidVal)
    (e1 : String) (enc pat : Resource) (s1 s2 : Nat) (pid ty0 e2 : String)
    (hu : u.truthy = true) (hs : u ∉ seen)
    (h1 : env1.getEncounter u.toStr = .error e1)
    (h2 : env2.getEncounter u.toStr = .ok enc)
    (h3 : (putToNode env2 enc).result = .ok s1)
    (hp : extractPatientId enc.subjectRef = some pid) (hpe : pid.isEmpty = false)
    (h4 : env2.getPatient pid = .ok pat)
    (h5 : (putToNode env2 pat).result = .ok s2)
    (hty : ty0 ∈ relatedTypes) (h6 : env2.getBundle ty0 u.toStr = .error e2)
    (env3 : Env) (enc3 : Resource) (e3 : Option String)
    (g1 : env3.getEncounter u.toStr = .ok enc3)
    (g2 : (putToNode env3 enc3).result = .error e3) :
    processEvent env1 seen u =
      ⟨⟨500, .err (some e1)⟩, seen ++ [u],
       [Ev.markSeen u.toStr, Ev.persist, Ev.fetchEncounter u.toStr]⟩ ∧
    (processEvent env2 seen u).resp =
      ⟨200, .ok u.toStr (2 + ((relatedTypes.map fun ty => typeCount env2 ty u.toStr)).sum)⟩ ∧
    typeCount env2 ty0 u.toStr = 0 ∧
    (processEvent env2 seen u).resp =
      ⟨200, .ok u.toStr
        (2 + (((relatedTypes.erase ty0).map fun ty => typeCount env2 ty u.toStr)).sum)⟩ ∧
    processEvent env3 seen u =
      ⟨⟨500, .err e3⟩, seen ++ [u],
       Ev.markSeen u.toStr :: Ev.persist :: Ev.fetchEncounter u.toStr ::
         (putToNode env3 enc3).trace⟩ ∧
    ∀ ev ∈ (putToNode env3 enc3).trace,
      ev = Ev.putAttempt enc3.resourceType enc3.id ∨ ∃ w, ev = Ev.wait w := by
  have hfail := processEvent_admitted_err env1 seen u (some e1) [Ev.fetchEncounter u.toStr]
    hu hs (runBody_fetchFail env1 u.toStr e1 h1)
  have hpat := patientStep_ok env2 enc pat pid s2 hp hpe h4 h5
  have hbody := runBody_ok env2 u.toStr enc s1 1
    (Ev.fetchPatient pid :: (putToNode env2 pat).trace) h2 h3 hpat
  have hev := processEvent_admitted_ok env2 seen u _ _ hu hs hbody
  have hzero : typeCount env2 ty0 u.toStr = 0 := by
    simp [typeCount, processType_fetchFail env2 ty0 u.toStr e2 h6]
  have hsum : ((relatedTypes.map fun ty => typeCount env2 ty u.toStr)).sum =
      ((relatedTypes.erase ty0).map fun ty => typeCount env2 ty u.toStr).sum := by
    have hperm := (List.perm_cons_erase hty).map (fun ty => typeCount env2 ty u.toStr)
    rw [hperm.sum_eq]
    simp [hzero]
  have hev3 := processEvent_admitted_err env3 seen u e3
    (Ev.fetchEncounter u.toStr :: (putToNode env3 enc3).trace) hu hs
    (runBody_rootPutFail env3 u.toStr enc3 e3 g1 g2)
  refine ⟨hfail, ?_, hzero, ?_, hev3, putToNode_trace_own env3 enc3⟩
  · rw [hev]
    simp only
    rw [processTypes_fst]
  · rw [hev]
    simp only
    rw [processTypes_fst, hsum]

/-- C3 witness: the spec's example — root fetch failing yields the bare
500 trace; with the Condition query failing and everything else
succeeding the event is ok and counts root, patient and the other
types' successes only; a rejected root delivery yields 500 after
exactly three Encounter PUT attempts and their waits, nothing else. -/
theorem c3_fatal_root_isolated_type_witness :
    processEvent envRootFail [] (.str "enc-1") =
      ⟨⟨500, .err (some "proxy down")⟩, [.str "enc-1"],
       [Ev.markSeen "enc-1", Ev.persist, Ev.fetchEncounter "enc-1"]⟩ ∧
    (processEvent envGood [] (.str "enc-1")).resp =
      ⟨200, .ok "enc-1" (2 + ((relatedTypes.map fun ty => typeCount envGood ty "enc-1")).sum)⟩ ∧
    typeCount envGood "Condition" "enc-1" = 0 ∧
    (processEvent envGood [] (.str "enc-1")).resp =
      ⟨200, .ok "enc-1"
        (2 + (((relatedTypes.erase "Condition").map fun ty =>
          typeCount envGood ty "enc-1")).sum)⟩ ∧
    processEvent envRootPutFail [] (.str "enc-1") =
      ⟨⟨500, .err (some "node down")⟩, [.str "enc-1"],
       Ev.markSeen "enc-1" :: Ev.persist :: Ev.fetchEncounter "enc-1" ::
         (putToNode envRootPutFail ⟨"Encounter", "enc-1", some "Patient/pat-1"⟩).trace⟩ ∧
    (putToNode envRootPutFail ⟨"Encounter", "enc-1", some "Patient/pat-1"⟩).trace =
      [Ev.putAttempt "Encounter" "enc-1", Ev.wait 500, Ev.putAttempt "Encounter" "enc-1",
       Ev.wait 1000, Ev.putAttempt "Encounter" "enc-1", Ev.wait 1500] := by
  have h := c3_fatal_root_isolated_type envRootFail envGood [] (.str "enc-1") "proxy down"
    ⟨"Encounter", "enc-1", some "Patient/pat-1"⟩ ⟨"Patient", "pat-1", none⟩ 200 200
    "pat-1" "Condition" "condition down" (by decide) (by simp) rfl rfl rfl (by decide)
    rfl rfl rfl (by decide) rfl envRootPutFail
    ⟨"Encounter", "enc-1", some "Patient/pat-1"⟩ (some "node down") rfl rfl
  exact ⟨h.1, h.2.1, h.2.2.1, h.2.2.2.1, h.2.2.2.2.1, by decide⟩

/-- C5: a record delivery failure after exhausted retries ends only that
type's collection loop: records delivered before it stay counted, the
remaining records of the collection are never attempted (the loop's
outcome is that of the prefix up to and including the failing record),
the type's contribution equals the prefix successes, the event still
answers 200, and every related type is still queried. -/
theorem c5_record_failure_per_type (env : Env) (seen : List UuidVal) (u : UuidVal)
    (pre post : List (Option Resource)) (bad enc : Resource) (eb : Option String)
    (s1 : Nat) (ty0 : String)
    (hu : u.truthy = true) (hs : u ∉ seen)
    (hpre : ∀ r : Resource, some r ∈ pre → deliverable r = true →
      ∃ sc, (putToNode env r).result = .ok sc)
    (hbad : deliverable bad = true) (hbput : (putToNode env bad).result = .error eb)
    (h2 : env.getEncounter u.toStr = .ok enc)
    (h3 : (putToNode env enc).result = .ok s1)
    (hskip : truthyOptStr (extractPatientId enc.subjectRef) = false)
    (hty : ty0 ∈ relatedTypes) :
    (processEntries env (pre ++ some bad :: post)).delivered =
      (processEntries env pre).delivered ∧
    (processEntries env (pre ++ some bad :: post)).aborted = some eb ∧
    (processEntries env (pre ++ some bad :: post)).trace =
      (processEntries env pre).trace ++ (putToNode env bad).trace ∧
    (env.getBundle ty0 u.toStr = .ok ⟨some (pre ++ some bad :: post)⟩ →
      typeCount env ty0 u.toStr = (processEntries env pre).delivered) ∧
    (processEvent env seen u).resp.status = 200 ∧
    Ev.fetchQuery ty0 u.toStr ∈ (processEvent env seen u).trace ∧
    ∀ ty2 ∈ relatedTypes, Ev.fetchQuery ty2 u.toStr ∈ (processEvent env seen u).trace := by
  have habn := processEntries_aborted_none env pre hpre
  have happ := processEntries_append env pre (some bad :: post) habn
  have hcf := processEntries_cons_fail env bad post eb hbad hbput
  have hbody := runBody_ok env u.toStr enc s1 0 [] h2 h3 (patientStep_skip env enc hskip)
  have hev := processEvent_admitted_ok env seen u _ _ hu hs hbody
  have hall : ∀ ty2 ∈ relatedTypes,
      Ev.fetchQuery ty2 u.toStr ∈ (processEvent env seen u).trace := by
    intro ty2 hty2
    rw [hev]
    have hmem := processTypes_fetch_mem env u.toStr relatedTypes ty2 hty2
    simp [hmem]
  refine ⟨?_, ?_, ?_, ?_, by rw [hev], hall ty0 hty, hall⟩
  · rw [happ, hcf]
    simp
  · rw [happ, hcf]
  · rw [happ, hcf]
  · intro h6
    rw [typeCount, processType, h6]
    simp only
    rw [happ, hcf]
    simp

/-- C5 witness: an Observation bundle good, bad, good with the middle
record rejected: one record counted, the trailing record untouched, the
type's count 1, the event ok, every type still queried. -/
theorem c5_record_failure_per_type_witness :
    (processEntries envMidFail ([some obsGood1] ++ some obsBad :: [some obsGood2])).delivered =
      (processEntries envMidFail [some obsGood1]).delivered ∧
    (processEntries envMidFail ([some obsGood1] ++ some obsBad :: [some obsGood2])).aborted =
      some (some "node rejects") ∧
    (processEntries envMidFail ([some obsGood1] ++ some obsBad :: [some obsGood2])).trace =
      (processEntries envMidFail [some obsGood1]).trace ++ (putToNode envMidFail obsBad).trace ∧
    typeCount envMidFail "Observation" "enc-1" =
      (processEntries envMidFail [some obsGood1]).delivered ∧
    (processEvent envMidFail [] (.str "enc-1")).resp.status = 200 ∧
    Ev.fetchQuery "Observation" "enc-1" ∈ (processEvent envMidFail [] (.str "enc-1")).trace ∧
    Ev.fetchQuery "Condition" "enc-1" ∈ (processEvent envMidFail [] (.str "enc-1")).trace := by
  have h := c5_record_failure_per_type envMidFail [] (.str "enc-1")
    [some obsGood1] [some obsGood2] obsBad ⟨"Encounter", "enc-1", none⟩
    (some "node rejects") 200 "Observation" (by decide) (by simp)
    (by
      intro r hr hd
      simp only [List.mem_singleton, Option.some.injEq] at hr
      subst hr
      exact ⟨200, rfl⟩)
    rfl rfl rfl rfl rfl (by decide)
  exact ⟨h.1, h.2.1, h.2.2.1, h.2.2.2.1 rfl, h.2.2.2.2.1, h.2.2.2.2.2.1,
    h.2.2.2.2.2.2 "Condition" (by decide)⟩

/-- C6: subject processing is optional and, when present, fatal on
failure: with no truthy subject reference the Patient is never fetched,
the event is ok and the count is root plus the related types only; with
a subject present, a Patient fetch failure or an exhausted Patient
delivery failure makes the whole event fail with 500. -/
theorem c6_subject_optional_but_fatal (env1 env2 env3 : Env) (seen : List UuidVal)
    (u : UuidVal) (enc1 enc2 enc3 pat : Resource) (s1 s2 s3 : Nat)
    (pid2 pid3 e2 : String) (e3 : Option String)
    (hu : u.truthy = true) (hs : u ∉ seen)
    (a1 : env1.getEncounter u.toStr = .ok enc1)
    (a2 : (putToNode env1 enc1).result = .ok s1)
    (a3 : truthyOptStr (extractPatientId enc1.subjectRef) = false)
    (b1 : env2.getEncounter u.toStr = .ok enc2)
    (b2 : (putToNode env2 enc2).result = .ok s2)
    (b3 : extractPatientId enc2.subjectRef = some pid2) (b4 : pid2.isEmpty = false)
    (b5 : env2.getPatient pid2 = .error e2)
    (d1 : env3.getEncounter u.toStr = .ok enc3)
    (d2 : (putToNode env3 enc3).result = .ok s3)
    (d3 : extractPatientId enc3.subjectRef = some pid3) (d4 : pid3.isEmpty = false)
    (d5 : env3.getPatient pid3 = .ok pat)
    (d6 : (putToNode env3 pat).result = .error e3) :
    ((processEvent env1 seen u).resp =
      ⟨200, .ok u.toStr (1 + ((relatedTypes.map fun ty => typeCount env1 ty u.toStr)).sum)⟩ ∧
     ∀ p, Ev.fetchPatient p ∉ (processEvent env1 seen u).trace) ∧
    (processEvent env2 seen u).resp = ⟨500, .err (some e2)⟩ ∧
    (processEvent env3 seen u).resp = ⟨500, .err e3⟩ := by
  have hb1 := runBody_ok env1 u.toStr enc1 s1 0 [] a1 a2 (patientStep_skip env1 enc1 a3)
  have he1 := processEvent_admitted_ok env1 seen u _ _ hu hs hb1
  have hb2 := runBody_patFail env2 u.toStr enc2 s2 (some e2) [Ev.fetchPatient pid2] b1 b2
    (patientStep_fetchFail env2 enc2 pid2 e2 b3 b4 b5)
  have he2 := processEvent_admitted_err env2 seen u _ _ hu hs hb2
  have hb3 := runBody_patFail env3 u.toStr enc3 s3 e3
    (Ev.fetchPatient pid3 :: (putToNode env3 pat).trace) d1 d2
    (patientStep_putFail env3 enc3 pat pid3 e3 d3 d4 d5 d6)
  have he3 := processEvent_admitted_err env3 seen u _ _ hu hs hb3
  refine ⟨⟨?_, ?_⟩, by rw [he2], by rw [he3]⟩
  · rw [he1]
    simp only
    rw [processTypes_fst]
  · intro p hmem
    rw [he1] at hmem
    simp at hmem
    rcases hmem with h | h
    · rcases putToNode_trace_putLike env1 enc1 _ h with ⟨rt, rid, he⟩ | ⟨w, he⟩ <;> simp at he
    · rcases processTypes_trace_mem env1 u.toStr relatedTypes _ h with ⟨ty', he⟩ |
        ⟨rt, rid, he⟩ | ⟨w, he⟩ <;> simp at he

/-- C6 witness: a subject-free Encounter event is ok, fetches no
Patient, and counts only root and related types; a Patient fetch failure
and an exhausted Patient delivery both yield 500. -/
theorem c6_subject_optional_but_fatal_witness :
    ((processEvent envNoSubject [] (.str "enc-1")).resp =
      ⟨200, .ok "enc-1"
        (1 + ((relatedTypes.map fun ty => typeCount envNoSubject ty "enc-1")).sum)⟩ ∧
     Ev.fetchPatient "pat-1" ∉ (processEvent envNoSubject [] (.str "enc-1")).trace) ∧
    (processEvent envPatFail [] (.str "enc-1")).resp = ⟨500, .err (some "patient down")⟩ ∧
    (processEvent envPatPutFail [] (.str "enc-1")).resp =
      ⟨500, .err (some "patient rejected")⟩ := by
  have h := c6_subject_optional_but_fatal envNoSubject envPatFail envPatPutFail []
    (.str "enc-1") ⟨"Encounter", "enc-1", none⟩ ⟨"Encounter", "enc-1", some "Patient/pat-1"⟩
    ⟨"Encounter", "enc-1", some "Patient/pat-1"⟩ ⟨"Patient", "pat-1", none⟩ 200 200 200
    "pat-1" "pat-1" "patient down" (some "patient rejected") (by decide) (by simp)
    rfl rfl rfl rfl rfl (by decide) rfl rfl rfl rfl (by decide) rfl rfl rfl
  exact ⟨⟨h.1.1, h.1.2 "pat-1"⟩, h.2.1, h.2.2⟩

/-- C9: retry wraps delivery only, never retrieval: in any admitted
event each upstream fetch (root, patient, per-type query) occurs at most
once in the trace, the root fetch exactly once; a failed root fetch ends
the event immediately with no repeat of the fetch; and every delivery
runs through the bounded executor — between 1 and MAX_RETRIES PUT
attempts, the trace recording exactly one PUT per attempt. -/
theorem c9_retry_only_around_delivery (env : Env) (seen : List UuidVal) (u : UuidVal)
    (s p ty q e : String) (r : Resource)
    (hu : u.truthy = true) (hs : u ∉ seen) :
    (processEvent env seen u).trace.count (Ev.fetchEncounter s) ≤ 1 ∧
    (processEvent env seen u).trace.count (Ev.fetchPatient p) ≤ 1 ∧
    (processEvent env seen u).trace.count (Ev.fetchQuery ty q) ≤ 1 ∧
    (processEvent env seen u).trace.count (Ev.fetchEncounter u.toStr) = 1 ∧
    (env.getEncounter u.toStr = .error e →
      (processEvent env seen u).trace =
        [Ev.markSeen u.toStr, Ev.persist, Ev.fetchEncounter u.toStr]) ∧
    1 ≤ (putToNode env r).calls ∧ (putToNode env r).calls ≤ MAX_RETRIES ∧
    (putToNode env r).trace.count (Ev.putAttempt r.resourceType r.id) =
      (putToNode env r).calls := by
  obtain ⟨hc1, hc2, hc3⟩ := processEvent_counts env seen u s p ty q hu hs
  obtain ⟨hd1, hd2, hd3⟩ := processEvent_counts env seen u u.toStr p ty q hu hs
  refine ⟨?_, hc2, hc3, by rw [hd1]; simp, ?_, putToNode_calls_pos env r,
    putToNode_calls_le env r, putToNode_count env r⟩
  · rw [hc1]
    by_cases hsu : s = u.toStr <;> simp [hsu]
  · intro hF
    rw [processEvent_admitted_err env seen u (some e) [Ev.fetchEncounter u.toStr] hu hs
      (runBody_fetchFail env u.toStr e hF)]

/-- C9 witness: with a failing root fetch the trace holds exactly one
fetch and nothing else after admission; a delivery against this
environment makes between 1 and 3 attempts, all recorded. -/
theorem c9_retry_only_around_delivery_witness :
    (processEvent envRootFail [] (.str "enc-1")).trace.count (Ev.fetchEncounter "enc-1") = 1 ∧
    (processEvent envRootFail [] (.str "enc-1")).trace =
      [Ev.markSeen "enc-1", Ev.persist, Ev.fetchEncounter "enc-1"] ∧
    1 ≤ (putToNode envRootFail obsGood1).calls ∧
    (putToNode envRootFail obsGood1).calls ≤ MAX_RETRIES ∧
    (putToNode envRootFail obsGood1).trace.count (Ev.putAttempt "Observation" "obs-1") =
      (putToNode envRootFail obsGood1).calls := by
  have h := c9_retry_only_around_delivery envRootFail [] (.str "enc-1")
    "x" "y" "Observation" "enc-1" "proxy down" obsGood1 (by decide) (by simp)
  exact ⟨h.2.2.2.1, h.2.2.2.2.1 rfl, h.2.2.2.2.2.1, h.2.2.2.2.2.2.1, h.2.2.2.2.2.2.2⟩

end OpenhimFhir
